import Mathlib

/-!
Verification development for the shogi rules/search engine.

The definitions below are a shallow embedding of the TypeScript sources:
  * `src/types.ts`        — data model (piece kinds, players, positions, moves, game state)
  * `src/logic/board.ts`  — board construction, coordinate conversion, hand operations, promotion maps
  * `src/logic/moves.ts`  — movement catalog, raw move generation, dead squares, promotion eligibility
  * `src/logic/legalMoves.ts` — check detection, move/drop application, legality filters, checkmate
  * `src/logic/gameRules.ts`  — SFEN position encoding, repetition, game-result evaluation
  * `src/ai/evaluation.ts`    — piece values and quick evaluation
  * `src/ai/multiStageEngine.ts` — quiescence search and minimax
  * `src/ai/intermediate.ts`  — the intermediate/advanced minimax and its evaluator

Machine numbers are modelled by `Nat`/`Int`/`Rat`; the JavaScript `Infinity`
sentinels used for alpha/beta bounds are modelled by the `XVal` extension of a
linearly ordered type with two infinities; thrown exceptions are modelled by
`Except String`.
-/

-- ========================================================================
-- Data model (types.ts)
-- ========================================================================

/-- Players: sente moves first. -/
inductive Player where
  | sente
  | gote
deriving DecidableEq, Repr

/-- The opponent of a player (the `player === 'sente' ? 'gote' : 'sente'` idiom). -/
def Player.opponent : Player → Player
  | .sente => .gote
  | .gote => .sente

/-- All 14 piece kinds: 8 base kinds plus the 6 promoted kinds. -/
inductive AllPieceType where
  | king
  | rook
  | bishop
  | gold
  | silver
  | knight
  | lance
  | pawn
  | promotedRook
  | promotedBishop
  | promotedSilver
  | promotedKnight
  | promotedLance
  | promotedPawn
deriving DecidableEq, Repr

/-- The 7 kinds that can be held in hand (non-king base kinds). -/
inductive HandPieceType where
  | rook
  | bishop
  | gold
  | silver
  | knight
  | lance
  | pawn
deriving DecidableEq, Repr

/-- Inclusion of hand piece kinds into all piece kinds. -/
def HandPieceType.toAll : HandPieceType → AllPieceType
  | .rook => .rook
  | .bishop => .bishop
  | .gold => .gold
  | .silver => .silver
  | .knight => .knight
  | .lance => .lance
  | .pawn => .pawn

/-- A board square address: column (file) 1-9 right to left, row (rank) 1-9 top
to bottom, as in `Position`. -/
structure Pos where
  col : Nat
  row : Nat
deriving DecidableEq, Repr

/-- A piece on the board. -/
structure Piece where
  ptype : AllPieceType
  owner : Player
  isPromoted : Bool
deriving DecidableEq, Repr

/-- The 9x9 board, row-major, 0-indexed (`Board = Square[][]`). -/
abbrev Board := List (List (Option Piece))

/-- Reserve counts per kind for one side (`Hand`). -/
structure Hand where
  rook : Nat
  bishop : Nat
  gold : Nat
  silver : Nat
  knight : Nat
  lance : Nat
  pawn : Nat
deriving DecidableEq, Repr

/-- Count for one kind in a hand (`hand[pieceType]`). -/
def Hand.get (h : Hand) : HandPieceType → Nat
  | .rook => h.rook
  | .bishop => h.bishop
  | .gold => h.gold
  | .silver => h.silver
  | .knight => h.knight
  | .lance => h.lance
  | .pawn => h.pawn

/-- Replace the count of one kind in a hand (`{...hand, [pieceType]: n}`). -/
def Hand.set (h : Hand) (k : HandPieceType) (n : Nat) : Hand :=
  match k with
  | .rook => { h with rook := n }
  | .bishop => { h with bishop := n }
  | .gold => { h with gold := n }
  | .silver => { h with silver := n }
  | .knight => { h with knight := n }
  | .lance => { h with lance := n }
  | .pawn => { h with pawn := n }

/-- Both sides' hands. -/
structure Hands where
  sente : Hand
  gote : Hand
deriving DecidableEq, Repr

/-- Hand of one player. -/
def Hands.get (hs : Hands) : Player → Hand
  | .sente => hs.sente
  | .gote => hs.gote

/-- A board-relocation move (`MoveAction`; the `from`/`to` fields are named
`fr`/`dst`). -/
structure MoveAction where
  fr : Pos
  dst : Pos
  piece : AllPieceType
  captured : Option AllPieceType
  promote : Bool
deriving DecidableEq, Repr

/-- A reserve drop (`DropAction`; the `to` field is named `dst`). -/
structure DropAction where
  dst : Pos
  piece : HandPieceType
deriving DecidableEq, Repr

/-- A move: relocation or drop (`Move`). -/
inductive Move where
  | move (m : MoveAction)
  | drop (d : DropAction)
deriving DecidableEq, Repr

/-- Game phase tag (`GamePhase`). -/
inductive GamePhase where
  | opening
  | middlegame
  | endgame
deriving DecidableEq, Repr

/-- Outcome of a repetition verdict: draw, or a win for a player. -/
inductive RepetitionOutcome where
  | draw
  | winner (p : Player)
deriving DecidableEq, Repr

/-- Terminal classification (`GameResult`). -/
inductive GameResult where
  | ongoing
  | checkmate (winner : Player)
  | stalemate (winner : Player)
  | repetition (r : RepetitionOutcome)
  | resignation (winner : Player)
deriving DecidableEq, Repr

/-- The full game state (`GameState`). -/
structure GameState where
  board : Board
  hands : Hands
  currentPlayer : Player
  moveHistory : List Move
  positionHistory : List String
  moveCount : Nat
  gamePhase : GamePhase
  result : GameResult
  isCheck : Bool
deriving DecidableEq, Repr

-- ========================================================================
-- Board operations (board.ts)
-- ========================================================================

/-- `positionToIndex`: rowIndex = row - 1, colIndex = 9 - col. -/
def positionToIndex (p : Pos) : Nat × Nat :=
  (p.row - 1, 9 - p.col)

/-- `indexToPosition`. -/
def indexToPosition (rowIndex colIndex : Nat) : Pos :=
  ⟨9 - colIndex, rowIndex + 1⟩

/-- Raw cell access `board[rowIndex][colIndex]`; out-of-range reads give an
empty square. -/
def cellAt (b : Board) (rowIndex colIndex : Nat) : Option Piece :=
  ((b.get? rowIndex).bind fun r => r.get? colIndex).join

/-- `getPieceAt`. -/
def getPieceAt (b : Board) (p : Pos) : Option Piece :=
  cellAt b (positionToIndex p).1 (positionToIndex p).2

/-- Write one cell of the board (the `newBoard[r][c] = piece` step on a fresh
copy). -/
def setCell (b : Board) (rowIndex colIndex : Nat) (sq : Option Piece) : Board :=
  b.set rowIndex (((b.get? rowIndex).getD []).set colIndex sq)

/-- `isValidPosition`. -/
def isValidPosition (col row : Int) : Bool :=
  col ≥ 1 && col ≤ 9 && row ≥ 1 && row ≤ 9

/-- `createEmptyHand`. -/
def createEmptyHand : Hand :=
  ⟨0, 0, 0, 0, 0, 0, 0⟩

/-- `addToHand`. -/
def addToHand (h : Hand) (k : HandPieceType) : Hand :=
  h.set k (h.get k + 1)

/-- Printable name of a hand piece kind, used in error messages. -/
def HandPieceType.name : HandPieceType → String
  | .rook => "rook"
  | .bishop => "bishop"
  | .gold => "gold"
  | .silver => "silver"
  | .knight => "knight"
  | .lance => "lance"
  | .pawn => "pawn"

/-- `removeFromHand`: throws when the reserve slot is already empty. -/
def removeFromHand (h : Hand) (k : HandPieceType) : Except String Hand :=
  if h.get k ≤ 0 then
    .error ("Cannot remove " ++ k.name ++ " from hand: none available")
  else
    .ok (h.set k (h.get k - 1))

/-- `PROMOTION_MAP`: the promoted variant of a kind, when one exists. -/
def PROMOTION_MAP : AllPieceType → Option AllPieceType
  | .rook => some .promotedRook
  | .bishop => some .promotedBishop
  | .silver => some .promotedSilver
  | .knight => some .promotedKnight
  | .lance => some .promotedLance
  | .pawn => some .promotedPawn
  | _ => none

/-- `UNPROMOTE_MAP` as a total function (`unpromotePiece` falls through to the
identity on non-promoted kinds). -/
def unpromotePiece : AllPieceType → AllPieceType
  | .promotedRook => .rook
  | .promotedBishop => .bishop
  | .promotedSilver => .silver
  | .promotedKnight => .knight
  | .promotedLance => .lance
  | .promotedPawn => .pawn
  | t => t

/-- `canPromote`. -/
def canPromote (t : AllPieceType) : Bool :=
  (PROMOTION_MAP t).isSome

/-- `promotePiece`: throws on kinds with no promoted variant. -/
def promotePiece (t : AllPieceType) : Except String AllPieceType :=
  match PROMOTION_MAP t with
  | some p => .ok p
  | none => .error "Cannot promote this piece type"

/-- The total variant of `promotePiece` used where the caller has already
checked `canPromote` (identity outside the map's domain). -/
def promotePieceD (t : AllPieceType) : AllPieceType :=
  (PROMOTION_MAP t).getD t

/-- `isPromotedPiece`. -/
def isPromotedPiece : AllPieceType → Bool
  | .promotedRook => true
  | .promotedBishop => true
  | .promotedSilver => true
  | .promotedKnight => true
  | .promotedLance => true
  | .promotedPawn => true
  | _ => false

/-- `toHandPieceType`: unpromote, then reject the king. -/
def toHandPieceType (t : AllPieceType) : Except String HandPieceType :=
  match unpromotePiece t with
  | .king => .error "King cannot be captured"
  | .rook => .ok .rook
  | .bishop => .ok .bishop
  | .gold => .ok .gold
  | .silver => .ok .silver
  | .knight => .ok .knight
  | .lance => .ok .lance
  | .pawn => .ok .pawn
  | _ => .error "unreachable: unpromoted promoted kind"

-- ========================================================================
-- Movement catalog and raw move generation (moves.ts)
-- ========================================================================

/-- A direction from sente's point of view (`Direction`). -/
structure Direction where
  dcol : Int
  drow : Int
deriving DecidableEq, Repr

/-- Step or slide (`MoveType`). -/
inductive MoveKind where
  | step
  | slide
deriving DecidableEq, Repr

/-- One entry of a piece's movement pattern (`MovePattern`). -/
structure MovePattern where
  direction : Direction
  kind : MoveKind
deriving DecidableEq, Repr

/-- The `DIRECTIONS` table. -/
def DIR_UP : Direction := ⟨0, -1⟩
def DIR_DOWN : Direction := ⟨0, 1⟩
def DIR_LEFT : Direction := ⟨-1, 0⟩
def DIR_RIGHT : Direction := ⟨1, 0⟩
def DIR_UP_LEFT : Direction := ⟨-1, -1⟩
def DIR_UP_RIGHT : Direction := ⟨1, -1⟩
def DIR_DOWN_LEFT : Direction := ⟨-1, 1⟩
def DIR_DOWN_RIGHT : Direction := ⟨1, 1⟩
def DIR_KNIGHT_LEFT : Direction := ⟨-1, -2⟩
def DIR_KNIGHT_RIGHT : Direction := ⟨1, -2⟩

/-- `KING_MOVES`. -/
def KING_MOVES : List MovePattern :=
  [⟨DIR_UP, .step⟩, ⟨DIR_DOWN, .step⟩, ⟨DIR_LEFT, .step⟩, ⟨DIR_RIGHT, .step⟩,
   ⟨DIR_UP_LEFT, .step⟩, ⟨DIR_UP_RIGHT, .step⟩, ⟨DIR_DOWN_LEFT, .step⟩,
   ⟨DIR_DOWN_RIGHT, .step⟩]

/-- `ROOK_MOVES`. -/
def ROOK_MOVES : List MovePattern :=
  [⟨DIR_UP, .slide⟩, ⟨DIR_DOWN, .slide⟩, ⟨DIR_LEFT, .slide⟩, ⟨DIR_RIGHT, .slide⟩]

/-- `PROMOTED_ROOK_MOVES`. -/
def PROMOTED_ROOK_MOVES : List MovePattern :=
  ROOK_MOVES ++
  [⟨DIR_UP_LEFT, .step⟩, ⟨DIR_UP_RIGHT, .step⟩, ⟨DIR_DOWN_LEFT, .step⟩,
   ⟨DIR_DOWN_RIGHT, .step⟩]

/-- `BISHOP_MOVES`. -/
def BISHOP_MOVES : List MovePattern :=
  [⟨DIR_UP_LEFT, .slide⟩, ⟨DIR_UP_RIGHT, .slide⟩, ⟨DIR_DOWN_LEFT, .slide⟩,
   ⟨DIR_DOWN_RIGHT, .slide⟩]

/-- `PROMOTED_BISHOP_MOVES`. -/
def PROMOTED_BISHOP_MOVES : List MovePattern :=
  BISHOP_MOVES ++
  [⟨DIR_UP, .step⟩, ⟨DIR_DOWN, .step⟩, ⟨DIR_LEFT, .step⟩, ⟨DIR_RIGHT, .step⟩]

/-- `GOLD_MOVES`. -/
def GOLD_MOVES : List MovePattern :=
  [⟨DIR_UP, .step⟩, ⟨DIR_UP_LEFT, .step⟩, ⟨DIR_UP_RIGHT, .step⟩,
   ⟨DIR_LEFT, .step⟩, ⟨DIR_RIGHT, .step⟩, ⟨DIR_DOWN, .step⟩]

/-- `SILVER_MOVES`. -/
def SILVER_MOVES : List MovePattern :=
  [⟨DIR_UP, .step⟩, ⟨DIR_UP_LEFT, .step⟩, ⟨DIR_UP_RIGHT, .step⟩,
   ⟨DIR_DOWN_LEFT, .step⟩, ⟨DIR_DOWN_RIGHT, .step⟩]

/-- `KNIGHT_MOVES`. -/
def KNIGHT_MOVES : List MovePattern :=
  [⟨DIR_KNIGHT_LEFT, .step⟩, ⟨DIR_KNIGHT_RIGHT, .step⟩]

/-- `LANCE_MOVES`. -/
def LANCE_MOVES : List MovePattern :=
  [⟨DIR_UP, .slide⟩]

/-- `PAWN_MOVES`. -/
def PAWN_MOVES : List MovePattern :=
  [⟨DIR_UP, .step⟩]

/-- `PIECE_MOVES`: piece kind to movement-pattern table; the four promoted
minor pieces reuse the gold pattern. -/
def PIECE_MOVES : AllPieceType → List MovePattern
  | .king => KING_MOVES
  | .rook => ROOK_MOVES
  | .bishop => BISHOP_MOVES
  | .gold => GOLD_MOVES
  | .silver => SILVER_MOVES
  | .knight => KNIGHT_MOVES
  | .lance => LANCE_MOVES
  | .pawn => PAWN_MOVES
  | .promotedRook => PROMOTED_ROOK_MOVES
  | .promotedBishop => PROMOTED_BISHOP_MOVES
  | .promotedSilver => GOLD_MOVES
  | .promotedKnight => GOLD_MOVES
  | .promotedLance => GOLD_MOVES
  | .promotedPawn => GOLD_MOVES

/-- `adjustDirectionForPlayer`: gote's directions are mirrored. -/
def adjustDirectionForPlayer (d : Direction) (owner : Player) : Direction :=
  match owner with
  | .gote => ⟨-d.dcol, -d.drow⟩
  | .sente => d

/-- Build a `Pos` from integer coordinates already known to be on the board. -/
def toPos (col row : Int) : Pos :=
  ⟨col.toNat, row.toNat⟩

/-- The slide loop of `getRawMoves`: walk outward from (`col`, `row`) in
direction (`dcol`, `drow`), collecting empty squares and stopping on any
occupied square (including an opponent's square, which is collected).  `fuel`
bounds the walk; it is called with fuel 9, which the `isValidPosition` guard
never exhausts on a 9x9 board. -/
def slideWalk (b : Board) (owner : Player) (dcol drow : Int) :
    Nat → Int → Int → List Pos
  | 0, _, _ => []
  | fuel + 1, col, row =>
    if isValidPosition col row then
      let targetPos := toPos col row
      match getPieceAt b targetPos with
      | none => targetPos :: slideWalk b owner dcol drow fuel (col + dcol) (row + drow)
      | some targetPiece =>
        if targetPiece.owner ≠ owner then [targetPos] else []
    else []

/-- `getRawMoves`: all geometrically reachable squares, self-check ignored. -/
def getRawMoves (b : Board) (fr : Pos) (pieceType : AllPieceType)
    (owner : Player) : List Pos :=
  (PIECE_MOVES pieceType).flatMap fun pattern =>
    let d := adjustDirectionForPlayer pattern.direction owner
    match pattern.kind with
    | .step =>
      let newCol : Int := (fr.col : Int) + d.dcol
      let newRow : Int := (fr.row : Int) + d.drow
      if isValidPosition newCol newRow then
        let targetPos := toPos newCol newRow
        match getPieceAt b targetPos with
        | none => [targetPos]
        | some targetPiece => if targetPiece.owner ≠ owner then [targetPos] else []
      else []
    | .slide =>
      slideWalk b owner d.dcol d.drow 9 ((fr.col : Int) + d.dcol) ((fr.row : Int) + d.drow)

/-- `canMoveTo`. -/
def canMoveTo (b : Board) (fr dst : Pos) (pieceType : AllPieceType)
    (owner : Player) : Bool :=
  (getRawMoves b fr pieceType owner).any fun m => m.col == dst.col && m.row == dst.row

/-- `isDeadPosition`: squares from which an unpromoted pawn/lance/knight could
never move again. -/
def isDeadPosition (pieceType : AllPieceType) (dst : Pos) (owner : Player) : Bool :=
  match owner with
  | .sente =>
    if pieceType = .pawn ∨ pieceType = .lance then dst.row == 1
    else if pieceType = .knight then dst.row ≤ 2
    else false
  | .gote =>
    if pieceType = .pawn ∨ pieceType = .lance then dst.row == 9
    else if pieceType = .knight then dst.row ≥ 8
    else false

/-- `canPromoteMove`: origin or destination in the mover's promotion zone. -/
def canPromoteMove (fr dst : Pos) (owner : Player) : Bool :=
  match owner with
  | .sente => fr.row ≤ 3 || dst.row ≤ 3
  | .gote => fr.row ≥ 7 || dst.row ≥ 7

/-- `mustPromote`. -/
def mustPromote (pieceType : AllPieceType) (dst : Pos) (owner : Player) : Bool :=
  isDeadPosition pieceType dst owner

-- ========================================================================
-- Legal move generation (legalMoves.ts)
-- ========================================================================

/-- `findKingPosition`: first scan hit in row-major order, if any. -/
def findKingPosition (b : Board) (player : Player) : Option Pos :=
  (List.range 9).findSome? fun row =>
    (List.range 9).findSome? fun col =>
      match cellAt b row col with
      | some piece =>
        if piece.ptype = .king ∧ piece.owner = player then
          some (indexToPosition row col)
        else none
      | none => none

/-- The per-cell test of `isSquareAttacked`: the piece at (`row`, `col`)
belongs to `byPlayer` and its raw moves reach `targetPos`. -/
def attacksFromCell (b : Board) (targetPos : Pos) (byPlayer : Player)
    (row col : Nat) : Bool :=
  match cellAt b row col with
  | some piece =>
    piece.owner == byPlayer &&
      (getRawMoves b (indexToPosition row col) piece.ptype byPlayer).any
        fun m => m.col == targetPos.col && m.row == targetPos.row
  | none => false

/-- `isSquareAttacked`. -/
def isSquareAttacked (b : Board) (targetPos : Pos) (byPlayer : Player) : Bool :=
  (List.range 9).any fun row =>
    (List.range 9).any fun col => attacksFromCell b targetPos byPlayer row col

/-- `isInCheck`: false when the player has no king (the scan finds nothing). -/
def isInCheck (b : Board) (player : Player) : Bool :=
  match findKingPosition b player with
  | none => false
  | some kingPos => isSquareAttacked b kingPos player.opponent

/-- `applyMove`: move the piece on a fresh board, promoting when requested and
legal; returns the new board and the captured piece. -/
def applyMove (b : Board) (move : MoveAction) : Board × Option Piece :=
  let fromIdx := positionToIndex move.fr
  let toIdx := positionToIndex move.dst
  let movingPiece := cellAt b fromIdx.1 fromIdx.2
  let captured := cellAt b toIdx.1 toIdx.2
  let b1 := setCell b fromIdx.1 fromIdx.2 none
  match movingPiece with
  | some piece =>
    if move.promote && canPromote piece.ptype && !isPromotedPiece piece.ptype then
      (setCell b1 toIdx.1 toIdx.2
        (some { piece with ptype := promotePieceD piece.ptype, isPromoted := true }),
       captured)
    else
      (setCell b1 toIdx.1 toIdx.2 (some piece), captured)
  | none => (b1, captured)

/-- `applyDrop`. -/
def applyDrop (b : Board) (drop : DropAction) (player : Player) : Board :=
  let idx := positionToIndex drop.dst
  setCell b idx.1 idx.2 (some ⟨drop.piece.toAll, player, false⟩)

/-- `isLegalMove`: a relocation is legal iff the mover's own king is not in
check on the resulting board. -/
def isLegalMove (b : Board) (move : MoveAction) (player : Player) : Bool :=
  !isInCheck (applyMove b move).1 player

/-- The double-pawn scan of `isLegalDrop`: some row of the destination file
holds an unpromoted pawn of the dropping player. -/
def hasOwnPawnOnFile (b : Board) (colIndex : Nat) (player : Player) : Bool :=
  (List.range 9).any fun row =>
    match cellAt b row colIndex with
    | some piece => piece.ptype == .pawn && piece.owner == player && !piece.isPromoted
    | none => false

/-- `isLegalDropForCheckEscape`: drop legality minus the drop-mate check, used
inside `isCheckmate` to avoid unbounded recursion. -/
def isLegalDropForCheckEscape (b : Board) (drop : DropAction) (player : Player)
    (hand : Hand) : Bool :=
  if hand.get drop.piece ≤ 0 then false
  else if (getPieceAt b drop.dst).isSome then false
  else if isDeadPosition drop.piece.toAll drop.dst player then false
  else if drop.piece == .pawn && hasOwnPawnOnFile b (positionToIndex drop.dst).2 player then false
  else !isInCheck (applyDrop b drop player) player

/-- `isCheckmate`: the player is in check and no relocation (plain or
promoting) and — when a reserve is supplied — no drop escapes the check. -/
def isCheckmate (b : Board) (player : Player) (hand : Option Hand := none) : Bool :=
  if !isInCheck b player then false
  else
    let boardEscape :=
      (List.range 9).any fun row =>
        (List.range 9).any fun col =>
          match cellAt b row col with
          | some piece =>
            piece.owner == player &&
              (getRawMoves b (indexToPosition row col) piece.ptype player).any fun dst =>
                isLegalMove b ⟨indexToPosition row col, dst, piece.ptype, none, false⟩ player ||
                (canPromote piece.ptype && !isPromotedPiece piece.ptype &&
                  isLegalMove b ⟨indexToPosition row col, dst, piece.ptype, none, true⟩ player)
          | none => false
    if boardEscape then false
    else
      match hand with
      | some h =>
        let handPieces : List HandPieceType :=
          [.rook, .bishop, .gold, .silver, .knight, .lance, .pawn]
        let dropEscape :=
          handPieces.any fun pieceType =>
            h.get pieceType > 0 &&
              ((List.range' 1 9).any fun row =>
                (List.range' 1 9).any fun col =>
                  isLegalDropForCheckEscape b ⟨⟨col, row⟩, pieceType⟩ player h)
        !dropEscape
      | none => true

/-- `isLegalDrop`: reserve count, emptiness, immobile square, double pawn,
drop-pawn-mate (nested `isCheckmate` without a reserve), then self-check. -/
def isLegalDrop (b : Board) (drop : DropAction) (player : Player)
    (hand : Hand) : Bool :=
  if hand.get drop.piece ≤ 0 then false
  else if (getPieceAt b drop.dst).isSome then false
  else if isDeadPosition drop.piece.toAll drop.dst player then false
  else if drop.piece == .pawn && hasOwnPawnOnFile b (positionToIndex drop.dst).2 player then false
  else if drop.piece == .pawn &&
      isCheckmate (applyDrop b drop player) player.opponent none then false
  else !isInCheck (applyDrop b drop player) player

/-- The candidate moves `getLegalMovesForPiece` produces for one raw
destination: the promoting variant when promotion is possible, the plain
variant unless promotion is forced, each kept only if it passes the self-check
filter. -/
def candidatesFor (b : Board) (fr : Pos) (player : Player) (piece : Piece)
    (dst : Pos) : List MoveAction :=
  let captured := (getPieceAt b dst).map (·.ptype)
  let canProm := canPromote piece.ptype && !isPromotedPiece piece.ptype &&
    canPromoteMove fr dst player
  let mustProm := mustPromote piece.ptype dst player
  if canProm then
    (let promoteMove : MoveAction := ⟨fr, dst, piece.ptype, captured, true⟩
     if isLegalMove b promoteMove player then [promoteMove] else []) ++
    (if !mustProm then
      let noPromoteMove : MoveAction := ⟨fr, dst, piece.ptype, captured, false⟩
      if isLegalMove b noPromoteMove player then [noPromoteMove] else []
     else [])
  else
    let move : MoveAction := ⟨fr, dst, piece.ptype, captured, false⟩
    if isLegalMove b move player then [move] else []

/-- `getLegalMovesForPiece`. -/
def getLegalMovesForPiece (b : Board) (fr : Pos) (player : Player) :
    List MoveAction :=
  match getPieceAt b fr with
  | none => []
  | some piece =>
    if piece.owner ≠ player then []
    else
      (getRawMoves b fr piece.ptype player).flatMap fun dst =>
        candidatesFor b fr player piece dst

/-- `getLegalDrops`. -/
def getLegalDrops (b : Board) (player : Player) (hand : Hand) : List DropAction :=
  let handPieces : List HandPieceType :=
    [.rook, .bishop, .gold, .silver, .knight, .lance, .pawn]
  handPieces.flatMap fun pieceType =>
    if hand.get pieceType ≤ 0 then []
    else
      (List.range' 1 9).flatMap fun row =>
        (List.range' 1 9).flatMap fun col =>
          let drop : DropAction := ⟨⟨col, row⟩, pieceType⟩
          if isLegalDrop b drop player hand then [drop] else []

/-- `getAllLegalMoves`: board relocations (row-major over the mover's pieces)
followed by reserve drops. -/
def getAllLegalMoves (state : GameState) : List Move :=
  let boardMoves :=
    (List.range 9).flatMap fun row =>
      (List.range 9).flatMap fun col =>
        match cellAt state.board row col with
        | some piece =>
          if piece.owner = state.currentPlayer then
            (getLegalMovesForPiece state.board (indexToPosition row col)
              state.currentPlayer).map Move.move
          else []
        | none => []
  let drops :=
    (getLegalDrops state.board state.currentPlayer
      (state.hands.get state.currentPlayer)).map Move.drop
  boardMoves ++ drops

/-- `isStalemate`: not in check and no legal move. -/
def isStalemate (state : GameState) : Bool :=
  if isInCheck state.board state.currentPlayer then false
  else (getAllLegalMoves state).isEmpty

-- ========================================================================
-- Position encoding and game result (gameRules.ts)
-- ========================================================================

/-- The uppercase SFEN letter(s) of a piece kind (`pieceMap`). -/
def pieceSfenBase : AllPieceType → String
  | .king => "K"
  | .rook => "R"
  | .bishop => "B"
  | .gold => "G"
  | .silver => "S"
  | .knight => "N"
  | .lance => "L"
  | .pawn => "P"
  | .promotedRook => "+R"
  | .promotedBishop => "+B"
  | .promotedSilver => "+S"
  | .promotedKnight => "+N"
  | .promotedLance => "+L"
  | .promotedPawn => "+P"

/-- The lowercase of a piece kind letter string (`toLowerCase` tabulated so
that the kernel can evaluate it). -/
def pieceSfenLower : AllPieceType → String
  | .king => "k"
  | .rook => "r"
  | .bishop => "b"
  | .gold => "g"
  | .silver => "s"
  | .knight => "n"
  | .lance => "l"
  | .pawn => "p"
  | .promotedRook => "+r"
  | .promotedBishop => "+b"
  | .promotedSilver => "+s"
  | .promotedKnight => "+n"
  | .promotedLance => "+l"
  | .promotedPawn => "+p"

/-- `pieceToSfen`: uppercase for sente, lowercase for gote. -/
def pieceToSfen (piece : Piece) : String :=
  match piece.owner with
  | .sente => pieceSfenBase piece.ptype
  | .gote => pieceSfenLower piece.ptype

/-- Decimal digit character. -/
def digitChar : Nat → Char
  | 0 => '0'
  | 1 => '1'
  | 2 => '2'
  | 3 => '3'
  | 4 => '4'
  | 5 => '5'
  | 6 => '6'
  | 7 => '7'
  | 8 => '8'
  | _ => '9'

/-- Decimal digits of a number, fuel-bounded so that the kernel can evaluate
it (`count.toString()`). -/
def natDigitsAux : Nat → Nat → List Char
  | 0, _ => []
  | fuel + 1, n =>
    if n < 10 then [digitChar n]
    else natDigitsAux fuel (n / 10) ++ [digitChar (n % 10)]

/-- Decimal rendering of a number (`toString` on a JS number). -/
def natToStr (n : Nat) : String :=
  ⟨natDigitsAux (n + 1) n⟩

/-- One row of `boardToSfen`: run-length encode the empty squares. -/
def rowToSfen (b : Board) (row : Nat) : String :=
  let step : String × Nat → Nat → String × Nat := fun acc col =>
    match cellAt b row col with
    | none => (acc.1, acc.2 + 1)
    | some piece =>
      ((acc.1 ++ (if acc.2 > 0 then natToStr acc.2 else "")) ++ pieceToSfen piece, 0)
  let r := (List.range 9).foldl step ("", 0)
  if r.2 > 0 then r.1 ++ natToStr r.2 else r.1

/-- `boardToSfen`: rank-major rows joined by `/`. -/
def boardToSfen (b : Board) : String :=
  String.intercalate "/" ((List.range 9).map (rowToSfen b))

/-- The SFEN letter of a hand piece kind (`sfenMap`). -/
def handSfenLetter : HandPieceType → String
  | .rook => "R"
  | .bishop => "B"
  | .gold => "G"
  | .silver => "S"
  | .knight => "N"
  | .lance => "L"
  | .pawn => "P"

/-- The lowercase hand-kind letter (`toLowerCase` tabulated). -/
def handSfenLetterLower : HandPieceType → String
  | .rook => "r"
  | .bishop => "b"
  | .gold => "g"
  | .silver => "s"
  | .knight => "n"
  | .lance => "l"
  | .pawn => "p"

/-- One side's part of `handsToSfen`: count (when above one) followed by the
kind's letter, skipping empty slots. -/
def handSideToSfen (h : Hand) (lower : Bool) : String :=
  let pieces : List HandPieceType :=
    [.rook, .bishop, .gold, .silver, .knight, .lance, .pawn]
  pieces.foldl
    (fun acc piece =>
      let count := h.get piece
      if count > 0 then
        (acc ++ (if count > 1 then natToStr count else "")) ++
          (if lower then handSfenLetterLower piece else handSfenLetter piece)
      else acc)
    ""

/-- `handsToSfen`: sente then gote, `-` when both hands are empty. -/
def handsToSfen (hands : Hands) : String :=
  let result := handSideToSfen hands.sente false ++ handSideToSfen hands.gote true
  if result = "" then "-" else result

/-- `gameStateToSfen`: board, side-to-move token, hands. -/
def gameStateToSfen (state : GameState) : String :=
  boardToSfen state.board ++ " " ++
    (match state.currentPlayer with | .sente => "b" | .gote => "w") ++ " " ++
    handsToSfen state.hands

/-- `countPositionRepetitions`: occurrences in the history plus one for the
current position. -/
def countPositionRepetitions (positionHistory : List String)
    (currentPosition : String) : Nat :=
  (positionHistory.filter (· = currentPosition)).length + 1

/-- `isRepetition`. -/
def isRepetition (state : GameState) : Bool :=
  countPositionRepetitions state.positionHistory (gameStateToSfen state) ≥ 4

/-- `isPerpeturalCheck` (sic): `some loser` in place of
`{isPerpetual: true, loser}`. -/
def isPerpeturalCheck (state : GameState) : Option Player :=
  let currentSfen := gameStateToSfen state
  if !isInCheck state.board state.currentPlayer then none
  else
    let checkCount :=
      (state.positionHistory.filter (· = currentSfen)).length
    if checkCount ≥ 3 then some state.currentPlayer.opponent else none

/-- `checkGameResult`: checkmate, stalemate, perpetual-check loss, repetition
draw, else ongoing.  The checkmate test passes no reserve to `isCheckmate`. -/
def checkGameResult (state : GameState) : GameResult :=
  let opponent := state.currentPlayer.opponent
  if isCheckmate state.board state.currentPlayer none then .checkmate opponent
  else if isStalemate state then .stalemate opponent
  else
    match isPerpeturalCheck state with
    | some loser => .repetition (.winner loser.opponent)
    | none =>
      if isRepetition state then .repetition .draw
      else .ongoing

/-- `determineGamePhase`. -/
def determineGamePhase (moveCount : Nat) : GamePhase :=
  if moveCount < 30 then .opening
  else if moveCount < 80 then .middlegame
  else .endgame

-- ========================================================================
-- Evaluation (evaluation.ts)
-- ========================================================================

/-- `PIECE_VALUES` (the same table appears in `evaluation.ts` and
`intermediate.ts`). -/
def PIECE_VALUES : AllPieceType → Int
  | .king => 0
  | .rook => 1000
  | .bishop => 900
  | .gold => 500
  | .silver => 450
  | .knight => 350
  | .lance => 300
  | .pawn => 100
  | .promotedRook => 1300
  | .promotedBishop => 1200
  | .promotedSilver => 500
  | .promotedKnight => 500
  | .promotedLance => 500
  | .promotedPawn => 600

/-- `HAND_PIECE_VALUES` of `evaluation.ts`. -/
def HAND_PIECE_VALUES_eval : HandPieceType → Int
  | .rook => 1200
  | .bishop => 1100
  | .gold => 550
  | .silver => 500
  | .knight => 400
  | .lance => 350
  | .pawn => 150

/-- `quickEvaluate`: signed material on the board plus hand values. -/
def quickEvaluate (state : GameState) : Int :=
  let boardScore :=
    (List.range 9).foldl
      (fun acc row =>
        (List.range 9).foldl
          (fun acc2 col =>
            match cellAt state.board row col with
            | some piece =>
              let value := PIECE_VALUES piece.ptype
              acc2 + (match piece.owner with | .sente => value | .gote => -value)
            | none => acc2)
          acc)
      0
  let handTypes : List HandPieceType :=
    [.rook, .bishop, .gold, .silver, .knight, .lance, .pawn]
  handTypes.foldl
    (fun acc t =>
      acc + (state.hands.sente.get t : Int) * HAND_PIECE_VALUES_eval t
        - (state.hands.gote.get t : Int) * HAND_PIECE_VALUES_eval t)
    boardScore

-- ========================================================================
-- Extended scores: JavaScript's Infinity sentinels
-- ========================================================================

/-- A score extended with the two infinities JavaScript search code uses as
alpha/beta sentinels. -/
inductive XVal (α : Type) where
  | negInf
  | fin (x : α)
  | posInf
deriving DecidableEq, Repr

/-- `x <= y` on extended scores. -/
def XVal.leb [LinearOrder α] : XVal α → XVal α → Bool
  | .negInf, _ => true
  | _, .posInf => true
  | .posInf, _ => false
  | .fin a, .fin b => decide (a ≤ b)
  | .fin _, .negInf => false

/-- `x < y` on extended scores. -/
def XVal.ltb [LinearOrder α] (x y : XVal α) : Bool :=
  !XVal.leb y x

/-- `Math.max` on extended scores. -/
def XVal.maxE [LinearOrder α] (x y : XVal α) : XVal α :=
  if XVal.leb x y then y else x

/-- `Math.min` on extended scores. -/
def XVal.minE [LinearOrder α] (x y : XVal α) : XVal α :=
  if XVal.leb y x then y else x

-- ========================================================================
-- Shared search plumbing (multiStageEngine.ts / intermediate.ts)
-- ========================================================================

/-- `applyMoveToState` (defined identically in both engine files): apply a
move or a drop, moving any captured piece into the mover's hand.  Capturing a
king or dropping from an empty reserve slot throws. -/
def applyMoveToState (state : GameState) (mv : Move) : Except String GameState :=
  let nextPlayer := state.currentPlayer.opponent
  match mv with
  | .move m =>
    let applied := applyMove state.board m
    match applied.2 with
    | some captured =>
      match toHandPieceType captured.ptype with
      | .error e => .error e
      | .ok handPieceType =>
        let newHands :=
          match state.currentPlayer with
          | .sente => { state.hands with sente := addToHand state.hands.sente handPieceType }
          | .gote => { state.hands with gote := addToHand state.hands.gote handPieceType }
        .ok { state with board := applied.1, hands := newHands,
                         currentPlayer := nextPlayer, moveCount := state.moveCount + 1 }
    | none =>
      .ok { state with board := applied.1, currentPlayer := nextPlayer,
                       moveCount := state.moveCount + 1 }
  | .drop d =>
    let newBoard := applyDrop state.board d state.currentPlayer
    match removeFromHand (state.hands.get state.currentPlayer) d.piece with
    | .error e => .error e
    | .ok newHand =>
      let newHands :=
        match state.currentPlayer with
        | .sente => { state.hands with sente := newHand }
        | .gote => { state.hands with gote := newHand }
      .ok { state with board := newBoard, hands := newHands,
                       currentPlayer := nextPlayer, moveCount := state.moveCount + 1 }

/-- The capture filter of the quiescence search
(`m.type === 'move' && m.captured`). -/
def isCaptureMove : Move → Bool
  | .move m => m.captured.isSome
  | .drop _ => false

/-- The alpha-beta loop body shared verbatim by the two engines' minimax
functions: visit moves in order, track the best score and move, update
alpha (maximizing) or beta (minimizing), stop on `beta <= alpha`. -/
def alphaBetaLoop [LinearOrder α]
    (next : GameState → XVal α → XVal α → Bool → Nat →
      Except String (XVal α × Option Move × Nat))
    (maximizing : Bool) (s : GameState) :
    List Move → XVal α → XVal α → XVal α → Option Move → Nat →
      Except String (XVal α × Option Move × Nat)
  | [], _, _, best, bestMove, ns => .ok (best, bestMove, ns)
  | mv :: rest, alpha, beta, best, bestMove, ns =>
    match applyMoveToState s mv with
    | .error e => .error e
    | .ok newState =>
      match next newState alpha beta (!maximizing) ns with
      | .error e => .error e
      | .ok (score, _, ns2) =>
        if maximizing then
          let better := XVal.ltb best score
          let best2 := if better then score else best
          let bestMove2 := if better then some mv else bestMove
          let alpha2 := XVal.maxE alpha score
          if XVal.leb beta alpha2 then .ok (best2, bestMove2, ns2)
          else alphaBetaLoop next maximizing s rest alpha2 beta best2 bestMove2 ns2
        else
          let better := XVal.ltb score best
          let best2 := if better then score else best
          let bestMove2 := if better then some mv else bestMove
          let beta2 := XVal.minE beta score
          if XVal.leb beta2 alpha then .ok (best2, bestMove2, ns2)
          else alphaBetaLoop next maximizing s rest alpha beta2 best2 bestMove2 ns2

-- ========================================================================
-- Quiescence search and minimax (multiStageEngine.ts)
-- ========================================================================

/-- The MVV-LVA sort key of the quiescence capture ordering
(`PIECE_VALUES[a.captured] - PIECE_VALUES[a.piece] * 0.1`). -/
def qsCaptureKey (mv : Move) : Rat :=
  match mv with
  | .move m =>
    match m.captured with
    | some c => (PIECE_VALUES c : Rat) - (PIECE_VALUES m.piece : Rat) * (1 / 10)
    | none => 0
  | .drop _ => 0

/-- The capture loop of `quiescenceSearch`, with delta pruning at margin 200;
`next` is the quiescence search one ply deeper. -/
def qsLoop (next : GameState → XVal Int → XVal Int → Bool → Nat →
      Except String (XVal Int × Nat))
    (s : GameState) (standPat : Int) (maximizing : Bool) :
    List Move → XVal Int → XVal Int → Nat → Except String (XVal Int × Nat)
  | [], alpha, beta, ns => .ok (if maximizing then alpha else beta, ns)
  | mv :: rest, alpha, beta, ns =>
    let skip :=
      match mv with
      | .move m =>
        match m.captured with
        | some c =>
          let captureValue := PIECE_VALUES c
          (maximizing && XVal.ltb (.fin (standPat + captureValue + 200)) alpha) ||
            (!maximizing && XVal.ltb beta (.fin (standPat - captureValue - 200)))
        | none => false
      | .drop _ => false
    if skip then qsLoop next s standPat maximizing rest alpha beta ns
    else
      match applyMoveToState s mv with
      | .error e => .error e
      | .ok newState =>
        match next newState alpha beta (!maximizing) ns with
        | .error e => .error e
        | .ok (score, ns2) =>
          if maximizing then
            let alpha2 := if XVal.ltb alpha score then score else alpha
            if XVal.leb beta alpha2 then .ok (alpha2, ns2)
            else qsLoop next s standPat maximizing rest alpha2 beta ns2
          else
            let beta2 := if XVal.ltb score beta then score else beta
            if XVal.leb beta2 alpha then .ok (beta2, ns2)
            else qsLoop next s standPat maximizing rest alpha beta2 ns2

/-- `quiescenceSearch`, fuelled by the remaining plies `6 - depth`
(`MAX_QUIESCENCE_DEPTH = 6`): stand-pat cutoffs, captures only, MVV-LVA
ordering, delta pruning. -/
def qsGo : Nat → GameState → XVal Int → XVal Int → Bool → Nat →
    Except String (XVal Int × Nat)
  | 0, s, _, _, _, ns => .ok (.fin (quickEvaluate s), ns + 1)
  | fuel + 1, s, alpha, beta, maximizing, ns =>
    let ns1 := ns + 1
    let standPat := quickEvaluate s
    if maximizing && XVal.leb beta (.fin standPat) then .ok (beta, ns1)
    else if !maximizing && XVal.leb (.fin standPat) alpha then .ok (alpha, ns1)
    else
      let alpha1 := if maximizing && XVal.ltb alpha (.fin standPat) then .fin standPat else alpha
      let beta1 := if !maximizing && XVal.ltb (.fin standPat) beta then .fin standPat else beta
      let allMoves := getAllLegalMoves s
      let captureMoves := allMoves.filter isCaptureMove
      if captureMoves.isEmpty then .ok (.fin standPat, ns1)
      else
        let sortedCaptures :=
          captureMoves.mergeSort fun a b => decide (qsCaptureKey b ≤ qsCaptureKey a)
        qsLoop (qsGo fuel) s standPat maximizing sortedCaptures alpha1 beta1 ns1

/-- `quiescenceSearch` with the source's depth-counting-up signature. -/
def quiescenceSearch (s : GameState) (alpha beta : XVal Int) (maximizing : Bool)
    (ns : Nat) (depth : Nat) : Except String (XVal Int × Nat) :=
  qsGo (6 - depth) s alpha beta maximizing ns

/-- The move-ordering key of the multi-stage `minimax`
(captures MVV-LVA at weight 10, promotions +300). -/
def msSortKey (mv : Move) : Int :=
  match mv with
  | .move m =>
    (match m.captured with
     | some c => PIECE_VALUES c * 10 - PIECE_VALUES m.piece
     | none => 0) + (if m.promote then 300 else 0)
  | .drop _ => 0

/-- `minimax` of `multiStageEngine.ts`: depth zero enters quiescence search;
no-move nodes score as mate (depth-adjusted) or stalemate zero; otherwise the
ordered alpha-beta loop. -/
def msMinimax : GameState → Nat → XVal Int → XVal Int → Bool → Nat →
    Except String (XVal Int × Option Move × Nat)
  | s, 0, alpha, beta, maximizing, ns =>
    match quiescenceSearch s alpha beta maximizing (ns + 1) 0 with
    | .error e => .error e
    | .ok (score, ns2) => .ok (score, none, ns2)
  | s, d + 1, alpha, beta, maximizing, ns =>
    let ns1 := ns + 1
    let depth : Int := (d : Int) + 1
    let moves := getAllLegalMoves s
    if moves.isEmpty then
      if isInCheck s.board s.currentPlayer then
        .ok (.fin (if maximizing then -100000 + (5 - depth) * 1000
                   else 100000 - (5 - depth) * 1000), none, ns1)
      else .ok (.fin 0, none, ns1)
    else
      let sortedMoves := moves.mergeSort fun a b => decide (msSortKey b ≤ msSortKey a)
      if maximizing then
        alphaBetaLoop (fun s2 a b m n => msMinimax s2 d a b m n) maximizing s
          sortedMoves alpha beta .negInf none ns1
      else
        alphaBetaLoop (fun s2 a b m n => msMinimax s2 d a b m n) maximizing s
          sortedMoves alpha beta .posInf none ns1

-- ========================================================================
-- Intermediate/advanced engine (intermediate.ts)
-- ========================================================================

/-- `HAND_PIECE_VALUES` of `intermediate.ts` (differs from the evaluation
module's table on knight/lance/pawn). -/
def HAND_PIECE_VALUES_inter : HandPieceType → Int
  | .rook => 1200
  | .bishop => 1100
  | .gold => 550
  | .silver => 500
  | .knight => 350
  | .lance => 300
  | .pawn => 120

/-- `getCentralControlBonus`. -/
def getCentralControlBonus (col row : Nat) : Int :=
  let colDist : Int := ((col : Int) - 4).natAbs
  let rowDist : Int := ((row : Int) - 4).natAbs
  max 0 (20 - (colDist + rowDist) * 3)

/-- First king cell of a player in row-major scan order, as 0-based indices
(the king-search loop of `getKingSafetyScore`). -/
def findKingIdx (b : Board) (player : Player) : Option (Nat × Nat) :=
  (List.range 9).findSome? fun row =>
    (List.range 9).findSome? fun col =>
      match cellAt b row col with
      | some piece =>
        if piece.ptype = .king ∧ piece.owner = player then some (row, col) else none
      | none => none

/-- `getKingSafetyScore` of `intermediate.ts`. -/
def getKingSafetyScore (b : Board) (player : Player) : Int :=
  match findKingIdx b player with
  | none => -10000
  | some kingIdx =>
    let kingRow := kingIdx.1
    let kingCol := kingIdx.2
    let zoneScore : Int :=
      match player with
      | .sente => if kingRow ≥ 6 then 50 else if kingRow ≥ 4 then 0 else -30
      | .gote => if kingRow ≤ 2 then 50 else if kingRow ≤ 4 then 0 else -30
    let deltas : List (Int × Int) :=
      [(-1, -1), (-1, 0), (-1, 1), (0, -1), (0, 1), (1, -1), (1, 0), (1, 1)]
    deltas.foldl
      (fun acc d =>
        let nr := (kingRow : Int) + d.1
        let nc := (kingCol : Int) + d.2
        if 0 ≤ nr ∧ nr < 9 ∧ 0 ≤ nc ∧ nc < 9 then
          match cellAt b nr.toNat nc.toNat with
          | some piece => if piece.owner = player then acc + 10 else acc
          | none => acc
        else acc)
      zoneScore

/-- `evaluateBoardAdvanced`: material plus 0.3-weighted central control,
hand values, king safety and check terms.  The 0.3 weight makes the score a
rational. -/
def evaluateBoardAdvanced (state : GameState) : Rat :=
  let boardScore : Rat :=
    (List.range 9).foldl
      (fun acc row =>
        (List.range 9).foldl
          (fun acc2 col =>
            match cellAt state.board row col with
            | some piece =>
              let multiplier : Rat := match piece.owner with | .sente => 1 | .gote => -1
              let base := acc2 + (PIECE_VALUES piece.ptype : Rat) * multiplier
              if piece.ptype ≠ .king then
                base + (getCentralControlBonus col row : Rat) * multiplier * (3 / 10)
              else base
            | none => acc2)
          acc)
      0
  let handTypes : List HandPieceType :=
    [.rook, .bishop, .gold, .silver, .knight, .lance, .pawn]
  let withHands :=
    handTypes.foldl
      (fun acc t =>
        acc + (state.hands.sente.get t : Rat) * (HAND_PIECE_VALUES_inter t : Rat)
          - (state.hands.gote.get t : Rat) * (HAND_PIECE_VALUES_inter t : Rat))
      boardScore
  let withSafety := withHands + (getKingSafetyScore state.board .sente : Rat)
    - (getKingSafetyScore state.board .gote : Rat)
  let withCheckS := if isInCheck state.board .sente then withSafety - 150 else withSafety
  if isInCheck state.board .gote then withCheckS + 150 else withCheckS

/-- The move-ordering key of the intermediate `minimax` (captured value). -/
def interSortKey (mv : Move) : Int :=
  match mv with
  | .move m =>
    match m.captured with
    | some c => PIECE_VALUES c
    | none => 0
  | .drop _ => 0

/-- `minimax` of `intermediate.ts` (used at depth 2 by the intermediate AI and
depth 3 by the advanced AI): depth zero returns the static evaluation
directly; otherwise the same alpha-beta loop over capture-ordered moves. -/
def interMinimax : GameState → Nat → XVal Rat → XVal Rat → Bool → Nat →
    Except String (XVal Rat × Option Move × Nat)
  | s, 0, _, _, _, ns =>
    .ok (.fin (evaluateBoardAdvanced s), none, ns + 1)
  | s, d + 1, alpha, beta, maximizing, ns =>
    let ns1 := ns + 1
    let depth : Int := (d : Int) + 1
    let moves := getAllLegalMoves s
    if moves.isEmpty then
      if isInCheck s.board s.currentPlayer then
        .ok (.fin ((if maximizing then -100000 + (3 - depth) * 1000
                    else 100000 - (3 - depth) * 1000 : Int) : Rat), none, ns1)
      else .ok (.fin 0, none, ns1)
    else
      let sortedMoves := moves.mergeSort fun a b => decide (interSortKey b ≤ interSortKey a)
      if maximizing then
        alphaBetaLoop (fun s2 a b m n => interMinimax s2 d a b m n) maximizing s
          sortedMoves alpha beta .negInf none ns1
      else
        alphaBetaLoop (fun s2 a b m n => interMinimax s2 d a b m n) maximizing s
          sortedMoves alpha beta .posInf none ns1

-- ========================================================================
-- Initial position (board.ts) and concrete fixtures
-- ========================================================================

/-- A sente piece, unpromoted (`createPiece(type, 'sente')`). -/
def sentePc (t : AllPieceType) : Option Piece := some ⟨t, .sente, false⟩

/-- A gote piece, unpromoted (`createPiece(type, 'gote')`). -/
def gotePc (t : AllPieceType) : Option Piece := some ⟨t, .gote, false⟩

/-- An empty rank. -/
def emptyRank : List (Option Piece) := List.replicate 9 none

/-- `createInitialBoard`: the standard setup. -/
def createInitialBoard : Board :=
  [[gotePc .lance, gotePc .knight, gotePc .silver, gotePc .gold, gotePc .king,
    gotePc .gold, gotePc .silver, gotePc .knight, gotePc .lance],
   [none, gotePc .rook, none, none, none, none, none, gotePc .bishop, none],
   List.replicate 9 (gotePc .pawn),
   emptyRank, emptyRank, emptyRank,
   List.replicate 9 (sentePc .pawn),
   [none, sentePc .bishop, none, none, none, none, none, sentePc .rook, none],
   [sentePc .lance, sentePc .knight, sentePc .silver, sentePc .gold, sentePc .king,
    sentePc .gold, sentePc .silver, sentePc .knight, sentePc .lance]]

/-- `createInitialGameState`. -/
def createInitialGameState : GameState :=
  ⟨createInitialBoard, ⟨createEmptyHand, createEmptyHand⟩, .sente, [], [], 0,
    .opening, .ongoing, false⟩

/-- Fixture: a bare-kings board (sente king on 5i, gote king on 5a). -/
def twoKingsBoard : Board :=
  [[none, none, none, none, gotePc .king, none, none, none, none],
   emptyRank, emptyRank, emptyRank, emptyRank, emptyRank, emptyRank, emptyRank,
   [none, none, none, none, sentePc .king, none, none, none, none]]

/-- Fixture: the bare-kings state with sente to move and no history. -/
def twoKingsState : GameState :=
  ⟨twoKingsBoard, ⟨createEmptyHand, createEmptyHand⟩, .sente, [], [], 0,
    .opening, .ongoing, false⟩

/-- Fixture: the bare-kings state whose position history already holds its own
encoding three times — the third total occurrence of the position, as the
application records it (the current position is appended to the history before
the result is evaluated). -/
def repetitionState : GameState :=
  { twoKingsState with
    positionHistory :=
      [gameStateToSfen twoKingsState, gameStateToSfen twoKingsState,
       gameStateToSfen twoKingsState] }

/-- Fixture: a back-rank mate.  Sente king on 9i is checked by a gote rook on
9a; a second gote rook on 8a seals the escape file; gote king on 1a. -/
def backRankMateBoard : Board :=
  [[gotePc .rook, gotePc .rook, none, none, none, none, none, none, gotePc .king],
   emptyRank, emptyRank, emptyRank, emptyRank, emptyRank, emptyRank, emptyRank,
   [sentePc .king, none, none, none, none, none, none, none, none]]

/-- Fixture: a hand holding a single gold. -/
def goldHand : Hand := ⟨0, 0, 1, 0, 0, 0, 0⟩

/-- Fixture: the back-rank-mate state with sente to move holding a gold in
reserve (a gold drop on the 9 file would block the check). -/
def backRankMateState : GameState :=
  ⟨backRankMateBoard, ⟨goldHand, createEmptyHand⟩, .sente, [], [], 0,
    .opening, .ongoing, false⟩

/-- Fixture: a position with a capture available — a sente rook on 5e can take
the gote pawn on 5d. -/
def captureBoard : Board :=
  [[none, none, none, none, none, none, none, none, gotePc .king],
   emptyRank, emptyRank,
   [none, none, none, none, gotePc .pawn, none, none, none, none],
   [none, none, none, none, sentePc .rook, none, none, none, none],
   emptyRank, emptyRank, emptyRank,
   [sentePc .king, none, none, none, none, none, none, none, none]]

/-- Fixture: the capture position with sente to move. -/
def captureState : GameState :=
  ⟨captureBoard, ⟨createEmptyHand, createEmptyHand⟩, .sente, [], [], 0,
    .opening, .ongoing, false⟩

/-- Fixture: a board with a sente pawn on 2d, free to advance to 2c with or
without promoting. -/
def promoChoiceBoard : Board :=
  [[none, none, none, none, gotePc .king, none, none, none, none],
   emptyRank, emptyRank,
   [none, none, none, none, none, none, none, sentePc .pawn, none],
   emptyRank, emptyRank, emptyRank, emptyRank,
   [none, none, none, none, sentePc .king, none, none, none, none]]

-- ========================================================================
-- Helper lemmas
-- ========================================================================

/-- Any move produced by `candidatesFor` passed the self-check filter. -/
theorem mem_candidatesFor_isLegal {b : Board} {fr : Pos} {pl : Player}
    {p : Piece} {dst : Pos} {m : MoveAction}
    (h : m ∈ candidatesFor b fr pl p dst) : isLegalMove b m pl = true := by
  simp only [candidatesFor] at h
  split at h
  · rcases List.mem_append.mp h with h | h
    · split at h
      next hl => rcases List.mem_singleton.mp h with rfl; exact hl
      next => cases h
    · split at h
      · split at h
        next hl => rcases List.mem_singleton.mp h with rfl; exact hl
        next => cases h
      · cases h
  · split at h
    next hl => rcases List.mem_singleton.mp h with rfl; exact hl
    next => cases h

/-- Unpack membership in `getLegalMovesForPiece`. -/
theorem mem_getLegalMovesForPiece {b : Board} {fr : Pos} {pl : Player}
    {m : MoveAction} (h : m ∈ getLegalMovesForPiece b fr pl) :
    ∃ p, getPieceAt b fr = some p ∧ p.owner = pl ∧
      ∃ dst ∈ getRawMoves b fr p.ptype pl, m ∈ candidatesFor b fr pl p dst := by
  unfold getLegalMovesForPiece at h
  cases hp : getPieceAt b fr with
  | none => rw [hp] at h; exact absurd h (List.not_mem_nil m)
  | some p =>
    rw [hp] at h
    by_cases how : p.owner = pl
    · simp only [how, ne_eq, not_true_eq_false, if_false, List.mem_flatMap] at h
      exact ⟨p, rfl, how, h⟩
    · simp only [how, ne_eq, not_false_eq_true, if_true] at h
      exact absurd h (List.not_mem_nil m)

/-- A forced-promotion square is always inside the promotion zone, for a
promotable unpromoted kind. -/
theorem mustPromote_promotable {p : AllPieceType} {fr dst : Pos} {pl : Player}
    (h : mustPromote p dst pl = true) :
    (canPromote p && !isPromotedPiece p && canPromoteMove fr dst pl) = true := by
  unfold mustPromote isDeadPosition at h
  cases pl <;> cases p <;>
    simp_all [canPromote, PROMOTION_MAP, isPromotedPiece, canPromoteMove] <;>
    omega

-- ========================================================================
-- C1
-- ========================================================================

/-- C1: `isLegalMove` accepts a candidate exactly when the mover's own king is
not attacked after applying the move (promotion included, inside `applyMove`),
and consequently every move `getLegalMovesForPiece` returns leaves the mover's
king unattacked on the resulting board. -/
theorem C1_legal_filter_no_self_check :
    (∀ (b : Board) (m : MoveAction) (pl : Player),
      isLegalMove b m pl = true ↔ isInCheck (applyMove b m).1 pl = false) ∧
    (∀ (b : Board) (fr : Pos) (pl : Player) (m : MoveAction),
      m ∈ getLegalMovesForPiece b fr pl →
      isInCheck (applyMove b m).1 pl = false) := by
  constructor
  · intro b m pl
    unfold isLegalMove
    simp
  · intro b fr pl m hm
    obtain ⟨p, _, _, dst, _, hcand⟩ := mem_getLegalMovesForPiece hm
    have hleg := mem_candidatesFor_isLegal hcand
    unfold isLegalMove at hleg
    simpa using hleg

/-- C1 witness: a concrete returned move (the bare-kings king step 5i-5h)
leaves the mover's king unattacked. -/
theorem C1_legal_filter_no_self_check_witness :
    (⟨⟨5, 9⟩, ⟨5, 8⟩, .king, none, false⟩ : MoveAction) ∈
      getLegalMovesForPiece twoKingsBoard ⟨5, 9⟩ .sente ∧
    isInCheck (applyMove twoKingsBoard ⟨⟨5, 9⟩, ⟨5, 8⟩, .king, none, false⟩).1
      .sente = false :=
  ⟨by decide,
   C1_legal_filter_no_self_check.2 twoKingsBoard ⟨5, 9⟩ .sente
     ⟨⟨5, 9⟩, ⟨5, 8⟩, .king, none, false⟩ (by decide)⟩

/-- Field shape of any move produced by `candidatesFor`; an unpromoting result
is only produced when promotion is not forced. -/
theorem mem_candidatesFor_shape {b : Board} {fr : Pos} {pl : Player} {p : Piece}
    {dst : Pos} {m : MoveAction} (h : m ∈ candidatesFor b fr pl p dst) :
    m.fr = fr ∧ m.dst = dst ∧ m.piece = p.ptype ∧
      (m.promote = false → mustPromote p.ptype dst pl = false) := by
  simp only [candidatesFor] at h
  split at h
  next hc =>
    rcases List.mem_append.mp h with h | h
    · split at h
      next => rcases List.mem_singleton.mp h with rfl
              exact ⟨rfl, rfl, rfl, fun hh => by simp at hh⟩
      next => cases h
    · split at h
      next hm =>
        split at h
        next => rcases List.mem_singleton.mp h with rfl
                exact ⟨rfl, rfl, rfl, fun _ => by simpa using hm⟩
        next => cases h
      next => cases h
  next hc =>
    split at h
    next => rcases List.mem_singleton.mp h with rfl
            refine ⟨rfl, rfl, rfl, fun _ => ?_⟩
            cases hb : mustPromote p.ptype dst pl
            · rfl
            · exact absurd (mustPromote_promotable hb) hc
    next => cases h

-- ========================================================================
-- C5
-- ========================================================================

/-- C5: `getLegalMovesForPiece` never returns an unpromoted move onto a forced
promotion square (pawn/lance on the farthest rank, knight on the two farthest
ranks), and for an eligible non-forced relocation both the promoting and the
non-promoting candidate are returned exactly when each passes the self-check
filter. -/
theorem C5_promotion_forcing_and_choice :
    (∀ (b : Board) (fr : Pos) (pl : Player) (m : MoveAction),
      m ∈ getLegalMovesForPiece b fr pl →
      mustPromote m.piece m.dst pl = true →
      m.promote = true) ∧
    (∀ (b : Board) (fr : Pos) (pl : Player) (p : Piece) (dst : Pos),
      getPieceAt b fr = some p → p.owner = pl →
      (canPromote p.ptype && !isPromotedPiece p.ptype &&
        canPromoteMove fr dst pl) = true →
      mustPromote p.ptype dst pl = false →
      dst ∈ getRawMoves b fr p.ptype pl →
      ((⟨fr, dst, p.ptype, (getPieceAt b dst).map (·.ptype), true⟩ : MoveAction) ∈
          getLegalMovesForPiece b fr pl ↔
        isLegalMove b ⟨fr, dst, p.ptype, (getPieceAt b dst).map (·.ptype), true⟩ pl
          = true) ∧
      ((⟨fr, dst, p.ptype, (getPieceAt b dst).map (·.ptype), false⟩ : MoveAction) ∈
          getLegalMovesForPiece b fr pl ↔
        isLegalMove b ⟨fr, dst, p.ptype, (getPieceAt b dst).map (·.ptype), false⟩ pl
          = true)) := by
  constructor
  · intro b fr pl m hm hmust
    obtain ⟨p, _, _, dst, _, hcand⟩ := mem_getLegalMovesForPiece hm
    obtain ⟨_, hdst, hpiece, hnoforce⟩ := mem_candidatesFor_shape hcand
    cases hpr : m.promote
    · rw [hpiece, hdst] at hmust
      rw [hnoforce hpr] at hmust
      cases hmust
    · rfl
  · intro b fr pl p dst hp how hcp hmp hraw
    have hout : getLegalMovesForPiece b fr pl =
        (getRawMoves b fr p.ptype pl).flatMap fun d =>
          candidatesFor b fr pl p d := by
      unfold getLegalMovesForPiece
      rw [hp]
      simp [how]
    have hcands : ∀ mv : MoveAction,
        mv ∈ candidatesFor b fr pl p dst → mv ∈ getLegalMovesForPiece b fr pl := by
      intro mv hmv
      rw [hout]
      exact List.mem_flatMap.mpr ⟨dst, hraw, hmv⟩
    constructor
    · constructor
      · intro hm
        obtain ⟨p2, hp2, _, d2, _, hcand⟩ := mem_getLegalMovesForPiece hm
        exact mem_candidatesFor_isLegal hcand
      · intro hleg
        apply hcands
        simp only [candidatesFor]
        rw [if_pos hcp]
        exact List.mem_append_left _ (by rw [if_pos hleg]; exact List.mem_singleton.mpr rfl)
    · constructor
      · intro hm
        obtain ⟨p2, hp2, _, d2, _, hcand⟩ := mem_getLegalMovesForPiece hm
        exact mem_candidatesFor_isLegal hcand
      · intro hleg
        apply hcands
        simp only [candidatesFor]
        rw [if_pos hcp]
        apply List.mem_append_right
        rw [if_pos (by simp [hmp]), if_pos hleg]
        exact List.mem_singleton.mpr rfl

/-- C5 witness: the sente pawn on 2d stepping to 2c (entering the zone, not
forced) yields both the promoting and the plain candidate; both pass the
filter on the fixture board. -/
theorem C5_promotion_forcing_and_choice_witness :
    ((⟨⟨2, 4⟩, ⟨2, 3⟩, .pawn, none, true⟩ : MoveAction) ∈
        getLegalMovesForPiece promoChoiceBoard ⟨2, 4⟩ .sente ↔
      isLegalMove promoChoiceBoard ⟨⟨2, 4⟩, ⟨2, 3⟩, .pawn, none, true⟩ .sente
        = true) ∧
    ((⟨⟨2, 4⟩, ⟨2, 3⟩, .pawn, none, false⟩ : MoveAction) ∈
        getLegalMovesForPiece promoChoiceBoard ⟨2, 4⟩ .sente ↔
      isLegalMove promoChoiceBoard ⟨⟨2, 4⟩, ⟨2, 3⟩, .pawn, none, false⟩ .sente
        = true) :=
  C5_promotion_forcing_and_choice.2 promoChoiceBoard ⟨2, 4⟩ .sente
    ⟨.pawn, .sente, false⟩ ⟨2, 3⟩ (by decide) (by decide) (by decide) (by decide)
    (by decide)

/-- The per-cell attack test holds exactly when the cell holds an attacker
whose raw moves reach the target. -/
theorem attacksFromCell_iff {b : Board} {tp : Pos} {bp : Player}
    {row col : Nat} :
    attacksFromCell b tp bp row col = true ↔
      ∃ piece, cellAt b row col = some piece ∧ piece.owner = bp ∧
        tp ∈ getRawMoves b (indexToPosition row col) piece.ptype bp := by
  cases hc : cellAt b row col with
  | none =>
    have hfalse : attacksFromCell b tp bp row col = false := by
      unfold attacksFromCell
      rw [hc]
    simp [hfalse, hc]
  | some piece =>
    have heq : attacksFromCell b tp bp row col =
        (piece.owner == bp &&
          (getRawMoves b (indexToPosition row col) piece.ptype bp).any
            fun m => m.col == tp.col && m.row == tp.row) := by
      unfold attacksFromCell
      rw [hc]
    rw [heq]
    simp only [Bool.and_eq_true, beq_iff_eq, List.any_eq_true, hc,
      Option.some.injEq]
    constructor
    · rintro ⟨hown, m, hmem, heq2⟩
      refine ⟨piece, rfl, hown, ?_⟩
      have hmtp : m = tp := by
        cases m; cases tp
        simp_all
      rwa [hmtp] at hmem
    · rintro ⟨piece2, hp2, hown, hmem⟩
      cases hp2
      exact ⟨hown, tp, hmem, by simp⟩

/-- `isInCheck` on a kingless board. -/
theorem isInCheck_of_no_king {b : Board} {pl : Player}
    (hk : findKingPosition b pl = none) : isInCheck b pl = false := by
  unfold isInCheck
  rw [hk]

/-- `isInCheck` reduces to the attack scan on the found king square. -/
theorem isInCheck_of_king {b : Board} {pl : Player} {kp : Pos}
    (hk : findKingPosition b pl = some kp) :
    isInCheck b pl = isSquareAttacked b kp pl.opponent := by
  unfold isInCheck
  rw [hk]

-- ========================================================================
-- C3
-- ========================================================================

/-- C3: `isInCheck` holds exactly when the player's king is found on the board
and some opponent piece on some square has the king's square among its raw
moves (raw moves computed on the current board, self-check ignored). -/
theorem C3_isInCheck_iff_raw_attack :
    ∀ (b : Board) (pl : Player),
      isInCheck b pl = true ↔
        ∃ kp, findKingPosition b pl = some kp ∧
          ∃ row col piece, row < 9 ∧ col < 9 ∧ cellAt b row col = some piece ∧
            piece.owner = pl.opponent ∧
            kp ∈ getRawMoves b (indexToPosition row col) piece.ptype pl.opponent := by
  intro b pl
  cases hk : findKingPosition b pl with
  | none => simp [isInCheck_of_no_king hk, hk]
  | some kp =>
    rw [isInCheck_of_king hk]
    constructor
    · intro hatt
      refine ⟨kp, rfl, ?_⟩
      unfold isSquareAttacked at hatt
      simp only [List.any_eq_true, List.mem_range] at hatt
      obtain ⟨row, hrow, col, hcol, hcell⟩ := hatt
      obtain ⟨piece, hc, hown, hmem⟩ := attacksFromCell_iff.mp hcell
      exact ⟨row, col, piece, hrow, hcol, hc, hown, hmem⟩
    · rintro ⟨kp2, hkp2, row, col, piece, hrow, hcol, hc, hown, hmem⟩
      obtain rfl : kp = kp2 := Option.some.inj hkp2
      unfold isSquareAttacked
      simp only [List.any_eq_true, List.mem_range]
      exact ⟨row, hrow, col, hcol,
        attacksFromCell_iff.mpr ⟨piece, hc, hown, hmem⟩⟩

/-- The double-pawn scan finds exactly an unpromoted own pawn somewhere on the
file. -/
theorem hasOwnPawnOnFile_iff {b : Board} {ci : Nat} {pl : Player} :
    hasOwnPawnOnFile b ci pl = true ↔
      ∃ row < 9, ∃ piece, cellAt b row ci = some piece ∧
        piece.ptype = .pawn ∧ piece.owner = pl ∧ piece.isPromoted = false := by
  unfold hasOwnPawnOnFile
  simp only [List.any_eq_true, List.mem_range]
  constructor
  · rintro ⟨row, hrow, hcell⟩
    refine ⟨row, hrow, ?_⟩
    cases hc : cellAt b row ci with
    | none => rw [hc] at hcell; cases hcell
    | some piece =>
      rw [hc] at hcell
      simp only [Bool.and_eq_true, beq_iff_eq, Bool.not_eq_true'] at hcell
      exact ⟨piece, rfl, hcell.1.1, hcell.1.2, hcell.2⟩
  · rintro ⟨row, hrow, piece, hc, hty, hown, hpr⟩
    refine ⟨row, hrow, ?_⟩
    rw [hc]
    simp [hty, hown, hpr]

-- ========================================================================
-- C2
-- ========================================================================

/-- C2: `isLegalDrop` accepts exactly when: the reserve holds the kind, the
destination is empty, the destination is not an immobile square for the
unpromoted kind, a pawn drop finds no own unpromoted pawn anywhere on the
destination file, a pawn drop does not checkmate the opponent when the nested
`isCheckmate` runs without a reserve, and the drop leaves the dropper's own
king out of check. -/
theorem C2_drop_legality_iff :
    ∀ (b : Board) (d : DropAction) (pl : Player) (h : Hand),
      isLegalDrop b d pl h = true ↔
        (0 < h.get d.piece ∧
         getPieceAt b d.dst = none ∧
         isDeadPosition d.piece.toAll d.dst pl = false ∧
         (d.piece = .pawn →
           ∀ row < 9, ∀ piece, cellAt b row (positionToIndex d.dst).2 = some piece →
             ¬(piece.ptype = .pawn ∧ piece.owner = pl ∧ piece.isPromoted = false)) ∧
         (d.piece = .pawn →
           isCheckmate (applyDrop b d pl) pl.opponent none = false) ∧
         isInCheck (applyDrop b d pl) pl = false) := by
  intro b d pl h
  unfold isLegalDrop
  split
  next h1 => simp only [Bool.false_eq_true, false_iff]; intro hc; omega
  next h1 =>
    split
    next h2 =>
      simp only [Bool.false_eq_true, false_iff]
      intro hc
      rw [hc.2.1] at h2
      cases h2
    next h2 =>
      have h2' : getPieceAt b d.dst = none := by
        cases hg : getPieceAt b d.dst
        · rfl
        · rw [hg] at h2; cases h2 rfl
      split
      next h3 => simp only [Bool.false_eq_true, false_iff]; intro hc; rw [hc.2.2.1] at h3; cases h3
      next h3 =>
        have h3' : isDeadPosition d.piece.toAll d.dst pl = false :=
          Bool.not_eq_true _ ▸ eq_false_of_ne_true h3
        split
        next h4 =>
          simp only [Bool.and_eq_true, beq_iff_eq] at h4
          simp only [Bool.false_eq_true, false_iff]
          intro hc
          obtain ⟨row, hrow, piece, hcell, hty, hown, hpr⟩ :=
            hasOwnPawnOnFile_iff.mp h4.2
          exact hc.2.2.2.1 h4.1 row hrow piece hcell ⟨hty, hown, hpr⟩
        next h4 =>
          split
          next h5 =>
            simp only [Bool.and_eq_true, beq_iff_eq] at h5
            simp only [Bool.false_eq_true, false_iff]
            intro hc
            rw [hc.2.2.2.2.1 h5.1] at h5
            cases h5.2
          next h5 =>
            simp only [Bool.not_eq_true']
            constructor
            · intro hchk
              refine ⟨by omega, h2', h3', ?_, ?_, hchk⟩
              · intro hpawn row hrow piece hcell hbad
                exact h4 (by
                  simp only [Bool.and_eq_true, beq_iff_eq]
                  exact ⟨hpawn, hasOwnPawnOnFile_iff.mpr
                    ⟨row, hrow, piece, hcell, hbad.1, hbad.2.1, hbad.2.2⟩⟩)
              · intro hpawn
                cases hcm : isCheckmate (applyDrop b d pl) pl.opponent none
                · rfl
                · exact absurd (by
                    simp only [Bool.and_eq_true, beq_iff_eq]
                    exact ⟨hpawn, hcm⟩) h5
            · intro hc
              exact hc.2.2.2.2.2

-- ========================================================================
-- C10
-- ========================================================================

/-- C10: on a board with no king of the given player anywhere in the scanned
9x9 area, `isInCheck` is false, and therefore `isCheckmate` is false whether
or not a reserve is supplied. -/
theorem C10_kingless_total :
    ∀ (b : Board) (pl : Player),
      (∀ row < 9, ∀ col < 9, ∀ piece, cellAt b row col = some piece →
        ¬(piece.ptype = .king ∧ piece.owner = pl)) →
      isInCheck b pl = false ∧ ∀ hand, isCheckmate b pl hand = false := by
  intro b pl hnoking
  have hfind : findKingPosition b pl = none := by
    unfold findKingPosition
    rw [List.findSome?_eq_none_iff]
    intro row hrow
    rw [List.findSome?_eq_none_iff]
    intro col hcol
    cases hc : cellAt b row col with
    | none => rfl
    | some piece =>
      simp only [List.mem_range] at hrow hcol
      have := hnoking row hrow col hcol piece hc
      exact if_neg this
  have hchk : isInCheck b pl = false := isInCheck_of_no_king hfind
  refine ⟨hchk, fun hand => ?_⟩
  unfold isCheckmate
  rw [hchk]
  rfl

/-- C10 witness: the empty board. -/
theorem C10_kingless_total_witness :
    isInCheck ([] : Board) .sente = false ∧
      ∀ hand, isCheckmate ([] : Board) .sente hand = false :=
  C10_kingless_total [] .sente (by decide)

-- ========================================================================
-- C6
-- ========================================================================

/-- C6: the canonical encoding reads only the board, the hands and the side
to move, so any two states agreeing on those three fields encode to identical
strings; both hands empty encode as `-`, and the initial position encodes to
the expected rank-major run-length string. -/
theorem C6_sfen_function_of_position :
    (∀ s1 s2 : GameState,
      s1.board = s2.board → s1.hands = s2.hands →
      s1.currentPlayer = s2.currentPlayer →
      gameStateToSfen s1 = gameStateToSfen s2) ∧
    handsToSfen ⟨createEmptyHand, createEmptyHand⟩ = "-" ∧
    boardToSfen createInitialBoard =
      "lnsgkgsnl/1r5b1/ppppppppp/9/9/9/PPPPPPPPP/1B5R1/LNSGKGSNL" ∧
    gameStateToSfen createInitialGameState =
      "lnsgkgsnl/1r5b1/ppppppppp/9/9/9/PPPPPPPPP/1B5R1/LNSGKGSNL b -" := by
  refine ⟨?_, by decide, by decide, by decide⟩
  intro s1 s2 hb hh hc
  unfold gameStateToSfen
  rw [hb, hh, hc]

/-- C6 witness: two states with the same board, hands and side to move but
different move counts, histories and result tags encode identically. -/
theorem C6_sfen_function_of_position_witness :
    gameStateToSfen twoKingsState =
      gameStateToSfen
        { twoKingsState with
          moveCount := 42,
          positionHistory := ["x"],
          moveHistory := [.drop ⟨⟨5, 5⟩, .pawn⟩],
          gamePhase := .endgame,
          isCheck := true } :=
  C6_sfen_function_of_position.1 twoKingsState _ rfl rfl rfl

-- ========================================================================
-- C8
-- ========================================================================

/-- C8: `removeFromHand` fails fast (returns an error, no hand) exactly on an
empty reserve slot and otherwise decrements that slot by one; `promotePiece`
fails fast on every kind with no promoted variant, and succeeds exactly on the
kinds the promotion map covers, returning precisely the mapped promoted
kind. -/
theorem C8_contract_violations_fail_fast :
    (∀ (h : Hand) (k : HandPieceType), h.get k ≤ 0 →
      removeFromHand h k =
        .error ("Cannot remove " ++ k.name ++ " from hand: none available")) ∧
    (∀ (h : Hand) (k : HandPieceType), 0 < h.get k →
      removeFromHand h k = .ok (h.set k (h.get k - 1))) ∧
    (∀ t : AllPieceType, canPromote t = false → ∃ e, promotePiece t = .error e) ∧
    (∀ (t p : AllPieceType), promotePiece t = .ok p ↔ PROMOTION_MAP t = some p) := by
  refine ⟨?_, ?_, ?_, ?_⟩
  · intro h k hk
    unfold removeFromHand
    rw [if_pos hk]
  · intro h k hk
    unfold removeFromHand
    rw [if_neg (by omega)]
  · intro t ht
    unfold promotePiece
    unfold canPromote at ht
    cases hm : PROMOTION_MAP t with
    | none => exact ⟨_, rfl⟩
    | some p => rw [hm] at ht; cases ht
  · intro t p
    unfold promotePiece
    cases hm : PROMOTION_MAP t with
    | none =>
      constructor
      · intro hp; cases hp
      · intro hp; cases hp
    | some q =>
      constructor
      · intro hp; cases hp; rfl
      · intro hp; cases hp; rfl

/-- C8 witness: concrete applications — removing from an empty pawn slot
errors, removing one of the gold in `goldHand` decrements it, promoting a king
errors, and a pawn promotes (successfully) to a tokin. -/
theorem C8_contract_violations_fail_fast_witness :
    removeFromHand createEmptyHand .pawn =
      .error ("Cannot remove " ++ HandPieceType.pawn.name ++
        " from hand: none available") ∧
    removeFromHand goldHand .gold = .ok (goldHand.set .gold 0) ∧
    (∃ e, promotePiece .king = .error e) ∧
    promotePiece .pawn = .ok .promotedPawn ∧
    PROMOTION_MAP .lance = some .promotedLance :=
  ⟨C8_contract_violations_fail_fast.1 createEmptyHand .pawn (by decide),
   C8_contract_violations_fail_fast.2.1 goldHand .gold (by decide),
   C8_contract_violations_fail_fast.2.2.1 .king (by decide),
   (C8_contract_violations_fail_fast.2.2.2 .pawn .promotedPawn).mpr (by decide),
   (C8_contract_violations_fail_fast.2.2.2 .lance .promotedLance).mp rfl⟩

-- ========================================================================
-- C9
-- ========================================================================

/-- C9: `checkGameResult` decides checkmate through `isCheckmate` applied
without the side to move's reserve, so a check whose only escapes are drops is
classified as checkmate even when the side to move holds droppable pieces. -/
theorem C9_checkmate_ignores_reserve :
    ∀ s : GameState,
      isCheckmate s.board s.currentPlayer none = true →
      checkGameResult s = .checkmate s.currentPlayer.opponent := by
  intro s hcm
  unfold checkGameResult
  rw [hcm]
  rfl

/-- C9 witness: in the back-rank-mate fixture the reserve gold could block the
check (`isCheckmate` with the hand says no mate), yet the state is classified
checkmate because the evaluator passes no hand. -/
theorem C9_checkmate_ignores_reserve_witness :
    isCheckmate backRankMateBoard .sente none = true ∧
    0 < goldHand.get .gold ∧
    isCheckmate backRankMateBoard .sente (some goldHand) = false ∧
    checkGameResult backRankMateState = .checkmate .gote :=
  ⟨by decide, by decide, by decide,
   C9_checkmate_ignores_reserve backRankMateState (by decide)⟩

-- ========================================================================
-- C4
-- ========================================================================

/-- C4: evaluation of the code at the failing input.  The bare-kings state is
not in check and its position history — which, as the application maintains
it, already contains the current position's encoding — holds that encoding 3
times, i.e. the position has occurred 3 times in total; yet `checkGameResult`
already declares a repetition draw (`countPositionRepetitions` counts the
current position a second time on top of its history entry), where the claim
(and the code's own fourfold-repetition comment) requires a 4th total
occurrence and `ongoing` before it. -/
theorem C4_repetition_draw_on_third_occurrence :
    (repetitionState.positionHistory.filter
        (· = gameStateToSfen repetitionState)).length = 3 ∧
    isInCheck repetitionState.board repetitionState.currentPlayer = false ∧
    isCheckmate repetitionState.board repetitionState.currentPlayer none = false ∧
    isStalemate repetitionState = false ∧
    checkGameResult repetitionState = .repetition .draw := by
  refine ⟨by decide, by decide, by decide, by decide, by decide⟩

-- ========================================================================
-- C7
-- ========================================================================

/-- C7 counterexample: the intermediate/advanced engine's minimax at depth
zero returns the raw static evaluation directly — even in a position with a
legal capture available — because it has no quiescence search; and the
multi-stage quiescence search does not return the stand-pat score when no
capture exists once the stand-pat score already meets the beta bound (it
returns beta). -/
theorem C7_counterexample_depth_zero :
    (interMinimax captureState 0 (.fin (-1000000)) (.fin 1000000) true 0 =
        .ok (.fin (evaluateBoardAdvanced captureState), none, 1) ∧
      ((getAllLegalMoves captureState).filter isCaptureMove).length = 1) ∧
    (quiescenceSearch twoKingsState (.fin (-10)) (.fin (-5)) true 0 0 =
        .ok (.fin (-5), 1) ∧
      (XVal.fin (-5) : XVal Int) ≠ .fin (quickEvaluate twoKingsState) ∧
      (getAllLegalMoves twoKingsState).filter isCaptureMove = []) := by
  exact ⟨⟨rfl, by decide⟩, ⟨by rfl, by decide, by decide⟩⟩

/-- C7 as amended: the multi-stage engine's minimax enters quiescence search
at depth zero; quiescence returns the static score at the 6-ply cap, and
returns the stand-pat static score when no legal capture exists *and* the
stand-pat score does not already meet the cutoff bound; the
intermediate/advanced engine's minimax instead returns the raw static
evaluation directly at depth zero. -/
theorem C7_amended_quiescence :
    (∀ (s : GameState) (alpha beta : XVal Int) (m : Bool) (ns : Nat),
      msMinimax s 0 alpha beta m ns =
        Except.map (fun r => (r.1, (none : Option Move), r.2))
          (quiescenceSearch s alpha beta m (ns + 1) 0)) ∧
    (∀ (s : GameState) (alpha beta : XVal Int) (m : Bool) (ns d : Nat), 6 ≤ d →
      quiescenceSearch s alpha beta m ns d = .ok (.fin (quickEvaluate s), ns + 1)) ∧
    (∀ (s : GameState) (alpha beta : XVal Int) (ns d : Nat), d < 6 →
      (getAllLegalMoves s).filter isCaptureMove = [] →
      XVal.ltb (.fin (quickEvaluate s)) beta = true →
      quiescenceSearch s alpha beta true ns d = .ok (.fin (quickEvaluate s), ns + 1)) ∧
    (∀ (s : GameState) (alpha beta : XVal Int) (ns d : Nat), d < 6 →
      (getAllLegalMoves s).filter isCaptureMove = [] →
      XVal.ltb alpha (.fin (quickEvaluate s)) = true →
      quiescenceSearch s alpha beta false ns d = .ok (.fin (quickEvaluate s), ns + 1)) ∧
    (∀ (s : GameState) (alpha beta : XVal Rat) (m : Bool) (ns : Nat),
      interMinimax s 0 alpha beta m ns =
        .ok (.fin (evaluateBoardAdvanced s), none, ns + 1)) := by
  refine ⟨?_, ?_, ?_, ?_, ?_⟩
  · intro s alpha beta m ns
    show (match quiescenceSearch s alpha beta m (ns + 1) 0 with
      | .error e => (.error e : Except String (XVal Int × Option Move × Nat))
      | .ok (score, ns2) => .ok (score, none, ns2)) = _
    cases hq : quiescenceSearch s alpha beta m (ns + 1) 0 with
    | error e => rfl
    | ok r => rfl
  · intro s alpha beta m ns d hd
    unfold quiescenceSearch
    rw [Nat.sub_eq_zero_of_le hd]
    rfl
  · intro s alpha beta ns d hd hcap hlt
    have hfuel : 6 - d = (5 - d) + 1 := by omega
    have hbf : XVal.leb beta (.fin (quickEvaluate s)) = false := by
      unfold XVal.ltb at hlt
      simpa using hlt
    unfold quiescenceSearch
    rw [hfuel]
    simp only [qsGo, hbf, hcap, Bool.true_and, Bool.not_true, Bool.false_and,
      Bool.and_false, if_false, List.isEmpty_nil, if_true, ite_false, ite_true,
      Bool.false_eq_true, reduceIte]
  · intro s alpha beta ns d hd hcap hlt
    have hfuel : 6 - d = (5 - d) + 1 := by omega
    have haf : XVal.leb (.fin (quickEvaluate s)) alpha = false := by
      unfold XVal.ltb at hlt
      simpa using hlt
    unfold quiescenceSearch
    rw [hfuel]
    simp only [qsGo, haf, hcap, Bool.true_and, Bool.not_false, Bool.false_and,
      Bool.and_false, if_false, List.isEmpty_nil, if_true, ite_false, ite_true,
      Bool.false_eq_true, reduceIte]
  · intro s alpha beta m ns
    rfl

/-- C7 amended witness: concrete applications of each clause on the bare-kings
state (no capture available, stand-pat score 0). -/
theorem C7_amended_quiescence_witness :
    msMinimax twoKingsState 0 (.fin 0) (.fin 1) true 0 =
      Except.map (fun r => (r.1, (none : Option Move), r.2))
        (quiescenceSearch twoKingsState (.fin 0) (.fin 1) true 1 0) ∧
    quiescenceSearch twoKingsState (.fin 0) (.fin 1) true 0 6 =
      .ok (.fin (quickEvaluate twoKingsState), 1) ∧
    quiescenceSearch twoKingsState (.fin (-1)) (.fin 5) true 0 0 =
      .ok (.fin (quickEvaluate twoKingsState), 1) ∧
    quiescenceSearch twoKingsState (.fin (-1)) (.fin 5) false 0 0 =
      .ok (.fin (quickEvaluate twoKingsState), 1) ∧
    interMinimax twoKingsState 0 (.fin 0) (.fin 1) true 0 =
      .ok (.fin (evaluateBoardAdvanced twoKingsState), none, 1) :=
  ⟨C7_amended_quiescence.1 twoKingsState (.fin 0) (.fin 1) true 0,
   C7_amended_quiescence.2.1 twoKingsState (.fin 0) (.fin 1) true 0 6 (by decide),
   C7_amended_quiescence.2.2.1 twoKingsState (.fin (-1)) (.fin 5) 0 0 (by decide)
     (by decide) (by decide),
   C7_amended_quiescence.2.2.2.1 twoKingsState (.fin (-1)) (.fin 5) 0 0 (by decide)
     (by decide) (by decide),
   C7_amended_quiescence.2.2.2.2 twoKingsState (.fin 0) (.fin 1) true 0⟩
